import Mathlib

/-!
Shallow embedding of the NetPulse measurement engine
(`src/net_pulse_react_single_file.jsx`).

Times are modelled as rationals (milliseconds, as returned by
`performance.now()`), byte counts as naturals.  JavaScript's
`Math.round` and `Number(x.toFixed(2))` are modelled as round-half-up
on nonnegative rationals, which is exact for every value arising in the
claims.  Log entries are the strings the code builds (timestamps passed
in explicitly, since the embedding is pure).
-/

namespace NetPulse

/-- JavaScript `Math.round x` for the nonnegative values used here:
round half up. -/
def jsRound (x : ℚ) : ℤ :=
  Int.floor (x + 1 / 2)

/-- JavaScript `Number(x.toFixed 2)` for the nonnegative values used here:
round half up at two decimal places. -/
def round2 (x : ℚ) : ℚ :=
  (Int.floor (x * 100 + 1 / 2) : ℚ) / 100

/-- `pushLog` formats an entry as `time — msg`
(the code interpolates `new Date().toLocaleTimeString()`). -/
def logEntry (time msg : String) : String :=
  time ++ " — " ++ msg

/-- `pushLog`: prepend the timestamped entry and keep at most 50 entries
(`[entry, ...l].slice(0, 50)`). -/
def pushLog (time msg : String) (l : List String) : List String :=
  (logEntry time msg :: l).take 50

/-- `measurePing`, given the array `results` of successful round-trip
times after the attempt loop: `null` when empty, otherwise
`Math.round` of `results[Math.floor(results.length / 2)]` after an
ascending sort. -/
def measurePing (results : List ℚ) : Option ℤ :=
  if results.isEmpty then none
  else
    let sorted := results.insertionSort (· ≤ ·)
    some (jsRound (sorted.getD (results.length / 2) 0))

/-- The statistical median, written from the spec's words ("the median of
successful round-trip times"): middle element of the sorted list for an
odd count, mean of the two middle elements for an even count.  Used only
to compare the code's selection rule against the spec. -/
def medianSpec (l : List ℚ) : ℚ :=
  let s := l.insertionSort (· ≤ ·)
  if l.length % 2 = 1 then s.getD (l.length / 2) 0
  else (s.getD (l.length / 2 - 1) 0 + s.getD (l.length / 2) 0) / 2

/-- Upload chunk size: `128 * 1024` bytes. -/
def chunkSize : Nat := 128 * 1024

/-- Size in bytes of the Blob built by `measureUpload sizeMB`:
`size = sizeMB * 1024 * 1024`, `pieces = Math.ceil(size / chunkSize)`,
and the Blob concatenates `pieces` copies of the full 128 KiB chunk
(`new Array(pieces).fill(chunk)`), so its size is `pieces * chunkSize`. -/
def uploadPayloadSize (sizeMB : ℚ) : Nat :=
  let size : ℚ := sizeMB * 1024 * 1024
  let pieces : Nat := (Int.ceil (size / (chunkSize : ℚ))).toNat
  pieces * chunkSize

/-- Per-stream mutable record of `measureDownloadParallel`:
`{ bytes: 0, start: null }`, `start` set to `performance.now()` once the
response body reader is obtained. -/
structure StreamState where
  bytes : Nat
  start : Option ℚ
  deriving DecidableEq, Repr

/-- `streamStates.reduce((s, st) => s + st.bytes, 0)`. -/
def totalBytesOf (states : List StreamState) : Nat :=
  states.foldl (fun s st => s + st.bytes) 0

/-- `Math.min(...streamStates.filter(s => s.start).map(s => s.start))`:
`none` models the empty case, where `Math.min()` is `Infinity` and the
subsequent `elapsed` guard returns `null`. -/
def earliestStart (states : List StreamState) : Option ℚ :=
  match states.filterMap StreamState.start with
  | [] => none
  | t :: ts => some (ts.foldl min t)

/-- One instantaneous sampler value: `kbps = deltaBytes / 1024 / deltaTime`
(seconds), `mbps = kbps * 8 / 1024`. -/
def sampleMbps (deltaBytes : Nat) (deltaTimeMs : ℚ) : ℚ :=
  let deltaTime := deltaTimeMs / 1000
  let kbps := (deltaBytes : ℚ) / 1024 / deltaTime
  kbps * 8 / 1024

/-- `peak = samples.length ? Math.max(...samples) : avgMbps`. -/
def peakOf (samples : List ℚ) (avg : ℚ) : ℚ :=
  match samples with
  | [] => avg
  | m :: ms => ms.foldl max m

/-- Result record of `measureDownloadParallel`. -/
structure DownloadResult where
  avgMbps : ℚ
  peakMbps : ℚ
  totalBytes : Nat
  deriving DecidableEq, Repr

/-- Final aggregate calculation of `measureDownloadParallel`, after
`Promise.allSettled` and `clearInterval`: `elapsed` from the earliest
stream start to `performance.now()`, `null` when no stream started or
`elapsed <= 0` (the code's `!elapsed || elapsed <= 0`), otherwise
`avgMbps = totalBytes * 8 / elapsed / (1024 * 1024)` and
`peak = max(samples)` or `avgMbps` when no sample was recorded, both
reported through `toFixed(2)`. -/
def downloadAggregate (states : List StreamState) (samples : List ℚ) (now : ℚ) :
    Option DownloadResult :=
  match earliestStart states with
  | none => none
  | some t0 =>
    let elapsed : ℚ := (now - t0) / 1000
    if elapsed ≤ 0 then none
    else
      let tb := totalBytesOf states
      let bits : ℚ := (tb : ℚ) * 8
      let avgMbps : ℚ := bits / elapsed / (1024 * 1024)
      let peak := peakOf samples avgMbps
      some { avgMbps := round2 avgMbps, peakMbps := round2 peak, totalBytes := tb }

/-- Events a stream's reader can produce: a data chunk, a clean end of
stream, an `AbortError`, or another transport error carrying a message. -/
inductive ChunkEvent where
  | chunk (len : Nat)
  | eof
  | abortError
  | readError (msg : String)
  deriving DecidableEq

/-- Outcome of a stream's `fetch`: rejection (connection failure or
abort before connecting), a response without a readable body, or a
response whose reader yields the given events. -/
inductive FetchOutcome where
  | fail
  | noBody
  | ok (events : List ChunkEvent)
  deriving DecidableEq

/-- `pushLog` message at stream start (the code appends the target in MB,
elided here; the claims only inspect failure entries). -/
def streamStartLog (index : Nat) : String :=
  "Starting stream " ++ toString (index + 1)

/-- `pushLog` message for a caught `AbortError`. -/
def streamAbortLog (index : Nat) : String :=
  "Stream " ++ toString (index + 1) ++ " aborted"

/-- `pushLog` message for a caught transport error. -/
def streamErrorLog (index : Nat) (msg : String) : String :=
  "Stream " ++ toString (index + 1) ++ " error: " ++ msg

/-- The read loop of `makeStream`: tally each chunk's length into the
stream's byte counter; once the counter reaches `targetBytes`, cancel
the reader and break; a clean `done` breaks; a thrown `AbortError` or
transport error is caught inside the unit and logged.  Returns the final
byte counter and the log entries the loop emitted. -/
def readLoop (index targetBytes acc : Nat) : List ChunkEvent → Nat × List String
  | [] => (acc, [])
  | ChunkEvent.eof :: _ => (acc, [])
  | ChunkEvent.abortError :: _ => (acc, [streamAbortLog index])
  | ChunkEvent.readError msg :: _ => (acc, [streamErrorLog index msg])
  | ChunkEvent.chunk n :: rest =>
    if targetBytes ≤ acc + n then (acc + n, [])
    else readLoop index targetBytes (acc + n) rest

/-- Input determining one stream's run: its fetch outcome and the time
at which the fetch resolved (used as the stream's `start`). -/
structure StreamRun where
  fetch : FetchOutcome
  startTime : ℚ
  deriving DecidableEq

/-- How one stream's promise settled, with the stream state it left
behind and the log entries it pushed. -/
structure StreamSettled where
  bytes : Nat
  start : Option ℚ
  logs : List String
  fulfilled : Bool
  deriving DecidableEq

/-- `makeStream`: logs the start entry, awaits `fetch` — note that this
`await` and the `res.body` check sit OUTSIDE the `try`, so a rejected
fetch or missing body rejects the unit's promise with no further log —
then sets `start` and runs the read loop, whose errors are caught
in-unit. -/
def makeStream (targetBytes index : Nat) (r : StreamRun) : StreamSettled :=
  match r.fetch with
  | FetchOutcome.fail =>
    { bytes := 0, start := none, logs := [streamStartLog index], fulfilled := false }
  | FetchOutcome.noBody =>
    { bytes := 0, start := none, logs := [streamStartLog index], fulfilled := false }
  | FetchOutcome.ok events =>
    let res := readLoop index targetBytes 0 events
    { bytes := res.1, start := some r.startTime,
      logs := streamStartLog index :: res.2, fulfilled := true }

/-- The `StreamState` a run leaves for the coordinator's aggregation
(the log text does not depend on it, so the index is immaterial). -/
def streamStateOf (targetBytes : Nat) (r : StreamRun) : StreamState :=
  let s := makeStream targetBytes 0 r
  { bytes := s.bytes, start := s.start }

/-- `measureDownloadParallel` end to end on given stream runs, recorded
sampler values and completion time: `Promise.allSettled` waits for every
unit regardless of rejection, then the final aggregation runs on the
accumulated stream states. -/
def measureDownloadParallel (targetBytes : Nat) (runs : List StreamRun)
    (samples : List ℚ) (now : ℚ) : Option DownloadResult :=
  downloadAggregate (runs.map (streamStateOf targetBytes)) samples now

/-- An `AbortController` paired with how many times its abort event has
fired. -/
structure AbortCtrl where
  aborted : Bool
  fireCount : Nat
  deriving DecidableEq

/-- `controller.abort()`: a no-op on an already-aborted controller,
otherwise set the flag and fire the abort event once. -/
def abortCtrl (c : AbortCtrl) : AbortCtrl :=
  if c.aborted then c else { aborted := true, fireCount := c.fireCount + 1 }

/-- One point of the live chart (`{ name, mbps }`). -/
structure ChartPoint where
  name : String
  mbps : ℚ
  deriving DecidableEq

/-- The component's state as far as the engine mutates it. -/
structure NetPulseState where
  running : Bool
  pingMs : Option ℤ
  downloadMbps : Option ℚ
  downloadPeakMbps : Option ℚ
  uploadMbps : Option ℚ
  dlChartData : List ChartPoint
  log : List String
  controllerRef : Option AbortCtrl
  deriving DecidableEq

/-- The synchronous prefix of `runNetPulse`, before any stage executes:
`setRunning(true)`, clear the chart and the four results, and push the
start marker.  `setLog` is never called with `[]` — the log is only ever
pushed to. -/
def runNetPulseStart (time : String) (s : NetPulseState) : NetPulseState :=
  { s with
    running := true
    dlChartData := []
    downloadMbps := none
    downloadPeakMbps := none
    uploadMbps := none
    pingMs := none
    log := pushLog time "--- NetPulse test started ---" s.log }

/-- The `onProgress` chart update:
`d => [...d.slice(-60), { name, mbps }]`. -/
def onProgress (d : List ChartPoint) (p : ChartPoint) : List ChartPoint :=
  d.drop (d.length - 60) ++ [p]

/-- `abortTest`: abort the current controller when one exists, push the
abort log entry, clear `running`. -/
def abortTest (time : String) (s : NetPulseState) : NetPulseState :=
  { s with
    controllerRef := s.controllerRef.map abortCtrl
    log := pushLog time "User aborted test" s.log
    running := false }

/-- A component state holding results and one log entry from a previous
run, used to exercise the start and abort transitions on concrete
input. -/
def demoState : NetPulseState :=
  { running := false
    pingMs := some 42
    downloadMbps := some 100
    downloadPeakMbps := some 120
    uploadMbps := some 50
    dlChartData := [{ name := "t0", mbps := 3 }]
    log := ["10:00:00 — old entry"]
    controllerRef := some { aborted := false, fireCount := 0 } }

/-- The spec's end-to-end scenario: 4 streams, each delivering
10,485,760 bytes in one chunk, first stream starting at t = 0 ms,
aggregation at t = 2000 ms. -/
def scenarioRuns : List StreamRun :=
  [ { fetch := FetchOutcome.ok [ChunkEvent.chunk 10485760], startTime := 0 },
    { fetch := FetchOutcome.ok [ChunkEvent.chunk 10485760], startTime := 50 },
    { fetch := FetchOutcome.ok [ChunkEvent.chunk 10485760], startTime := 100 },
    { fetch := FetchOutcome.ok [ChunkEvent.chunk 10485760], startTime := 150 } ]

/-- The spec's partial-failure scenario: 1 of 4 streams fails at the
connection, the other 3 each deliver one full 128 KiB target chunk. -/
def partialFailRuns : List StreamRun :=
  [ { fetch := FetchOutcome.fail, startTime := 0 },
    { fetch := FetchOutcome.ok [ChunkEvent.chunk 131072], startTime := 100 },
    { fetch := FetchOutcome.ok [ChunkEvent.chunk 131072], startTime := 150 },
    { fetch := FetchOutcome.ok [ChunkEvent.chunk 131072], startTime := 200 } ]

end NetPulse

namespace NetPulse

/-- Every `pushLog` result has at most 50 entries. -/
theorem pushLog_length_le (time msg : String) (l : List String) :
    (pushLog time msg l).length ≤ 50 := by
  simp [pushLog]

/-- Any sequence of `pushLog` calls preserves the 50-entry bound. -/
theorem foldl_pushLog_length_le (ops : List (String × String)) :
    ∀ l : List String, l.length ≤ 50 →
      (ops.foldl (fun acc tm => pushLog tm.1 tm.2 acc) l).length ≤ 50 := by
  induction ops with
  | nil => intro l h; simpa using h
  | cons op rest ih =>
    intro l _
    exact ih (pushLog op.1 op.2 l) (pushLog_length_le op.1 op.2 l)

/-- Aborting an already-aborted controller is a no-op. -/
theorem abortCtrl_idem (c : AbortCtrl) : abortCtrl (abortCtrl c) = abortCtrl c := by
  unfold abortCtrl
  by_cases h : c.aborted <;> simp [h]

/-- The source's `reduce` over stream byte counters, with a generalized
accumulator, is the list sum. -/
theorem foldl_bytes_eq (states : List StreamState) :
    ∀ n : ℕ, states.foldl (fun s st => s + st.bytes) n = n + (states.map StreamState.bytes).sum := by
  induction states with
  | nil => simp
  | cons st sts ih =>
    intro n
    simp only [List.foldl_cons, List.map_cons, List.sum_cons, ih]
    omega

/-- `totalBytesOf` is the sum of the per-stream byte counters. -/
theorem totalBytesOf_eq_sum (states : List StreamState) :
    totalBytesOf states = (states.map StreamState.bytes).sum := by
  simpa [totalBytesOf] using foldl_bytes_eq states 0

/-- A left fold of `min` is a lower bound of its seed and of the list. -/
theorem foldl_min_le (ts : List ℚ) :
    ∀ t : ℚ, ts.foldl min t ≤ t ∧ ∀ x ∈ ts, ts.foldl min t ≤ x := by
  induction ts with
  | nil => intro t; simp
  | cons a as ih =>
    intro t
    constructor
    · exact le_trans (ih (min t a)).1 (min_le_left t a)
    · intro x hx
      rcases List.mem_cons.mp hx with rfl | hx
      · exact le_trans (ih (min t x)).1 (min_le_right t x)
      · exact (ih (min t a)).2 x hx

/-- When some stream has a start time, `earliestStart` is defined and is
a lower bound of every recorded start time. -/
theorem earliestStart_le (states : List StreamState) (x : ℚ)
    (hx : x ∈ states.filterMap StreamState.start) :
    ∃ t0, earliestStart states = some t0 ∧ t0 ≤ x := by
  cases hfm : states.filterMap StreamState.start with
  | nil => rw [hfm] at hx; cases hx
  | cons t ts =>
    rw [hfm] at hx
    refine ⟨ts.foldl min t, ?_, ?_⟩
    · simp [earliestStart, hfm]
    · rcases List.mem_cons.mp hx with rfl | hx
      · exact (foldl_min_le ts x).1
      · exact (foldl_min_le ts t).2 x hx

/-- With a well-defined earliest start strictly before the completion
time, the aggregation succeeds with the code's formulas. -/
theorem downloadAggregate_eq (states : List StreamState) (samples : List ℚ) (now t0 : ℚ)
    (hE : earliestStart states = some t0) (hlt : t0 < now) :
    downloadAggregate states samples now =
      some { avgMbps := round2 ((totalBytesOf states : ℚ) * 8 / ((now - t0) / 1000) / (1024 * 1024))
             peakMbps :=
               round2 (peakOf samples
                 ((totalBytesOf states : ℚ) * 8 / ((now - t0) / 1000) / (1024 * 1024)))
             totalBytes := totalBytesOf states } := by
  have hpos : ¬ ((now - t0) / 1000 ≤ 0) := by
    push_neg
    exact div_pos (sub_pos.mpr hlt) (by norm_num)
  simp [downloadAggregate, hE, hpos]

/-- Inversion for a successful aggregation: the earliest start exists,
precedes completion, and the result is the code's record. -/
theorem downloadAggregate_some (states : List StreamState) (samples : List ℚ)
    (now : ℚ) (r : DownloadResult) (h : downloadAggregate states samples now = some r) :
    ∃ t0, earliestStart states = some t0 ∧ t0 < now ∧
      r = { avgMbps := round2 ((totalBytesOf states : ℚ) * 8 / ((now - t0) / 1000) / (1024 * 1024))
            peakMbps :=
              round2 (peakOf samples
                ((totalBytesOf states : ℚ) * 8 / ((now - t0) / 1000) / (1024 * 1024)))
            totalBytes := totalBytesOf states } := by
  cases hE : earliestStart states with
  | none => simp [downloadAggregate, hE] at h
  | some t0 =>
    by_cases hle : (now - t0) / 1000 ≤ 0
    · simp [downloadAggregate, hE, hle] at h
    · have hlt : t0 < now := by
        by_contra hge
        push_neg at hge
        exact hle (by linarith)
      rw [downloadAggregate_eq states samples now t0 hE hlt] at h
      exact ⟨t0, rfl, hlt, (Option.some.inj h).symm⟩

/-- A stream whose fetch succeeded records its start time. -/
theorem streamStateOf_start_ok (targetBytes : Nat) (r : StreamRun) (ev : List ChunkEvent)
    (h : r.fetch = FetchOutcome.ok ev) :
    (streamStateOf targetBytes r).start = some r.startTime := by
  simp [streamStateOf, makeStream, h]

/-- `Promise.allSettled` semantics: as long as one stream connected
before the completion time, the coordinator produces a result, no matter
how the other streams ended. -/
theorem measureDownload_settles (targetBytes : Nat) (runs : List StreamRun)
    (samples : List ℚ) (now : ℚ)
    (hok : ∃ run ∈ runs, (∃ ev, run.fetch = FetchOutcome.ok ev) ∧ run.startTime < now) :
    measureDownloadParallel targetBytes runs samples now ≠ none := by
  obtain ⟨run, hmem, ⟨ev, hev⟩, hlt⟩ := hok
  have hstart := streamStateOf_start_ok targetBytes run ev hev
  have hmem2 : run.startTime ∈ (runs.map (streamStateOf targetBytes)).filterMap StreamState.start :=
    List.mem_filterMap.mpr ⟨streamStateOf targetBytes run, List.mem_map_of_mem _ hmem, hstart⟩
  obtain ⟨t0, hE, ht0⟩ := earliestStart_le _ _ hmem2
  simp only [measureDownloadParallel]
  rw [downloadAggregate_eq _ samples now t0 hE (lt_of_le_of_lt ht0 hlt)]
  simp

/-- The read loop on a sequence of chunks that never reaches the target,
followed by a transport error: the error is caught, the bytes read so
far are kept, and exactly the error entry is logged. -/
theorem readLoop_chunks_then_error (index targetBytes : Nat) (msg : String) :
    ∀ (chunks : List Nat) (acc : Nat), acc + chunks.sum < targetBytes →
      readLoop index targetBytes acc (chunks.map ChunkEvent.chunk ++ [ChunkEvent.readError msg])
        = (acc + chunks.sum, [streamErrorLog index msg]) := by
  intro chunks
  induction chunks with
  | nil => intro acc _; simp [readLoop]
  | cons n ns ih =>
    intro acc h
    rw [List.sum_cons] at h
    simp only [List.map_cons, List.cons_append, List.append_eq, readLoop]
    rw [if_neg (by omega : ¬ targetBytes ≤ acc + n), ih (acc + n) (by omega)]
    rw [List.sum_cons]
    congr 1
    omega

end NetPulse

namespace NetPulse

/-- Claim C10: the activity log retains at most 50 entries, newest
first — every `pushLog` prepends exactly one timestamped entry and
truncates to the 50 most recent, so starting from any log within the
bound, no sequence of pushes ever exceeds 50 entries, and entries appear
in reverse chronological order (the new entry at the head, the retained
old entries after it in their previous order). -/
theorem pushLog_retains_50 (time msg : String) (l : List String)
    (ops : List (String × String)) (h : l.length ≤ 50) :
    pushLog time msg l = logEntry time msg :: l.take 49 ∧
    (pushLog time msg l).length ≤ 50 ∧
    (ops.foldl (fun acc tm => pushLog tm.1 tm.2 acc) l).length ≤ 50 :=
  ⟨rfl, pushLog_length_le time msg l, foldl_pushLog_length_le ops l h⟩

/-- Witness for C10 at a concrete log and push sequence. -/
theorem pushLog_retains_50_witness :
    pushLog "12:00:00" "hello" [] = [logEntry "12:00:00" "hello"] ∧
    (pushLog "12:00:00" "hello" []).length ≤ 50 ∧
    (([("12:00:01", "again")] : List (String × String)).foldl
        (fun acc tm => pushLog tm.1 tm.2 acc) []).length ≤ 50 :=
  pushLog_retains_50 "12:00:00" "hello" [] [("12:00:01", "again")] (by simp)

/-- Claim C7 counterexample: the live chart update keeps the 60 most
recent prior samples AND appends the new one, so after an append on a
60-sample sequence the sequence holds 61 samples — the claimed 60-sample
bound fails. -/
theorem onProgress_61_entries :
    (onProgress (List.replicate 60 { name := "t", mbps := 1 })
        { name := "t", mbps := 1 }).length = 61 ∧
    ¬ ((onProgress (List.replicate 60 { name := "t", mbps := 1 })
        { name := "t", mbps := 1 }).length ≤ 60) := by
  constructor
  · simp [onProgress]
  · simp [onProgress]

/-- Claim C7 (amended): after every append the live sample sequence
holds the new sample preceded by at most the 60 most recent older
samples — hence at most 61 entries, one more than the claimed bound —
in emission order: the retained older samples are a suffix of the
previous sequence and the new sample is last. -/
theorem onProgress_bounded_61 (d : List ChartPoint) (p : ChartPoint) :
    (onProgress d p).length = min d.length 60 + 1 ∧
    (onProgress d p).length ≤ 61 ∧
    (onProgress d p).getLast? = some p ∧
    onProgress d p = d.drop (d.length - 60) ++ [p] ∧
    d.drop (d.length - 60) <:+ d := by
  refine ⟨?_, ?_, ?_, rfl, List.drop_suffix _ _⟩
  · simp [onProgress]
    omega
  · simp [onProgress]
    omega
  · simp [onProgress]

/-- Claim C6 counterexample: a start request does not reset the event
log — the old entry survives, with the start marker prepended to it. -/
theorem start_keeps_old_log :
    (runNetPulseStart "10:05:00" demoState).log
      = [logEntry "10:05:00" "--- NetPulse test started ---", "10:00:00 — old entry"] ∧
    "10:00:00 — old entry" ∈ (runNetPulseStart "10:05:00" demoState).log :=
  ⟨rfl, List.mem_cons_of_mem _ (List.mem_cons_self _ _)⟩

/-- Claim C6 (amended): a start request resets all prior results (ping,
download average, download peak, upload, live sample series) before any
stage executes and marks the session running, but the event log is NOT
reset: the start marker is prepended to the retained prior log (bounded
at 50). -/
theorem runNetPulseStart_resets (time : String) (s : NetPulseState) :
    (runNetPulseStart time s).running = true ∧
    (runNetPulseStart time s).pingMs = none ∧
    (runNetPulseStart time s).downloadMbps = none ∧
    (runNetPulseStart time s).downloadPeakMbps = none ∧
    (runNetPulseStart time s).uploadMbps = none ∧
    (runNetPulseStart time s).dlChartData = [] ∧
    (runNetPulseStart time s).log
      = logEntry time "--- NetPulse test started ---" :: s.log.take 49 :=
  ⟨rfl, rfl, rfl, rfl, rfl, rfl, rfl⟩

/-- Claim C9 counterexample: a second `abortTest()` is not a no-op — it
pushes a second, duplicate 'User aborted test' entry onto the log, so
the state after two calls differs from the state after one. -/
theorem abortTest_twice_duplicates_log :
    (abortTest "10:06:00" (abortTest "10:06:00" demoState)).log
      = [logEntry "10:06:00" "User aborted test", logEntry "10:06:00" "User aborted test",
         "10:00:00 — old entry"] ∧
    abortTest "10:06:00" (abortTest "10:06:00" demoState) ≠ abortTest "10:06:00" demoState := by
  refine ⟨rfl, ?_⟩
  intro h
  have h2 := congrArg (fun st : NetPulseState => st.log.length) h
  simp [abortTest, demoState, pushLog] at h2

/-- Claim C9 (amended): a second `cancel()` in succession is safe at the
cancellation token — the controller is unchanged by the second call
(abort is idempotent and its event fires at most once in total), and the
running flag is unchanged — but each call appends another
'User aborted test' log entry; the log is not deduplicated. -/
theorem abortTest_second_call_effects (t1 t2 : String) (s : NetPulseState) (c : AbortCtrl) :
    (abortTest t2 (abortTest t1 s)).controllerRef = (abortTest t1 s).controllerRef ∧
    (abortTest t2 (abortTest t1 s)).running = (abortTest t1 s).running ∧
    abortCtrl (abortCtrl c) = abortCtrl c ∧
    (abortCtrl (abortCtrl c)).fireCount ≤ c.fireCount + 1 ∧
    (abortTest t2 (abortTest t1 s)).log
      = logEntry t2 "User aborted test" :: (abortTest t1 s).log.take 49 := by
  refine ⟨?_, rfl, abortCtrl_idem c, ?_, rfl⟩
  · show (s.controllerRef.map abortCtrl).map abortCtrl = s.controllerRef.map abortCtrl
    cases s.controllerRef with
    | none => rfl
    | some c0 => simp [abortCtrl_idem]
  · rw [abortCtrl_idem]
    unfold abortCtrl
    by_cases h : c.aborted <;> simp [h]

end NetPulse

namespace NetPulse

/-- Claim C3 counterexample: with an even number of successful attempts,
the code returns the upper of the two middle values, not the statistical
median — for round-trip times [10, 20] it reports 20 ms where the
median is 15 ms. -/
theorem measurePing_even_not_median :
    measurePing [10, 20] = some 20 ∧
    medianSpec [10, 20] = 15 ∧
    jsRound (medianSpec [10, 20]) = 15 ∧
    ¬ ((20 : ℤ) = 15) := by
  refine ⟨?_, ?_, ?_, by norm_num⟩
  · norm_num [measurePing, jsRound, List.insertionSort, List.orderedInsert,
      List.getD_cons_zero, List.getD_cons_succ]
  · norm_num [medianSpec, List.insertionSort, List.orderedInsert,
      List.getD_cons_zero, List.getD_cons_succ]
  · norm_num [medianSpec, jsRound, List.insertionSort, List.orderedInsert,
      List.getD_cons_zero, List.getD_cons_succ]

/-- Claim C3 (amended): if at least one attempt succeeds, the Latency
Prober returns `Math.round` of the element at index ⌊n/2⌋ of the
ascending-sorted successful round-trip times — which is the statistical
median whenever the success count is odd (in particular
[10, 400, 12, 11, 9] yields 11 ms, not the mean), but the upper of the
two middle values when it is even; if zero attempts succeed, it returns
absent. -/
theorem measurePing_sorted_middle (results : List ℚ) (h : results ≠ []) :
    measurePing results
      = some (jsRound ((results.insertionSort (· ≤ ·)).getD (results.length / 2) 0)) ∧
    (results.length % 2 = 1 → measurePing results = some (jsRound (medianSpec results))) ∧
    measurePing [] = none ∧
    measurePing [10, 400, 12, 11, 9] = some 11 := by
  have hne : results.isEmpty = false := by
    cases results with
    | nil => exact absurd rfl h
    | cons a as => rfl
  refine ⟨?_, ?_, rfl, ?_⟩
  · simp [measurePing, hne]
  · intro hodd
    simp [measurePing, hne, medianSpec, hodd]
  · norm_num [measurePing, jsRound, List.insertionSort, List.orderedInsert,
      List.getD_cons_zero, List.getD_cons_succ]

/-- Witness for C3 (amended) at the spec's five-probe example. -/
theorem measurePing_sorted_middle_witness :
    measurePing [10, 400, 12, 11, 9] = some 11 :=
  (measurePing_sorted_middle [10, 400, 12, 11, 9] (by simp)).2.2.2

/-- Claim C5 counterexample: a requested size of 1024 bytes
(`sizeMB = 1/1024`) yields a 131,072-byte payload — the chunk-repetition
scheme has no final trim, so any size that is not a multiple of the
128 KiB chunk overshoots. -/
theorem uploadPayload_overshoots :
    (1 / 1024 : ℚ) * 1024 * 1024 = 1024 ∧
    uploadPayloadSize (1 / 1024) = 131072 ∧
    ¬ ((131072 : ℕ) = 1024) := by
  refine ⟨by norm_num, ?_, by norm_num⟩
  norm_num [uploadPayloadSize, chunkSize]
  rw [show ⌈(1 : ℚ) / 128⌉ = 1 from by rw [Int.ceil_eq_iff] ; norm_num]
  rfl

/-- Claim C5 (amended): the payload the Upload Coordinator builds for a
requested size of `S = sizeMB·2^20` bytes is `⌈S / 2^17⌉ · 2^17` bytes:
never below `S` and within one 128 KiB chunk above it, with no final
trim; it is exactly `S` for every whole-MB request (each is a chunk
multiple), but overshoots for any size that is not a chunk multiple. -/
theorem uploadPayload_chunk_multiple (n : ℕ) (q : ℚ) (hq : 0 < q) :
    uploadPayloadSize (n : ℚ) = n * 1024 * 1024 ∧
    q * 1024 * 1024 ≤ (uploadPayloadSize q : ℚ) ∧
    (uploadPayloadSize q : ℚ) < q * 1024 * 1024 + chunkSize := by
  have hc : ((chunkSize : ℚ)) = 131072 := by norm_num [chunkSize]
  have hcpos : (0 : ℚ) < (chunkSize : ℚ) := by rw [hc]; norm_num
  refine ⟨?_, ?_, ?_⟩
  · show (⌈(n : ℚ) * 1024 * 1024 / (chunkSize : ℚ)⌉.toNat) * chunkSize = n * 1024 * 1024
    have hdiv : ((n : ℚ) * 1024 * 1024 / (chunkSize : ℚ)) = ((8 * n : ℕ) : ℚ) := by
      rw [hc]
      push_cast
      ring
    rw [hdiv, Int.ceil_natCast, Int.toNat_natCast, chunkSize]
    ring
  · have hp : (0 : ℤ) < ⌈q * 1024 * 1024 / (chunkSize : ℚ)⌉ :=
      Int.ceil_pos.mpr (div_pos (by positivity) hcpos)
    have hcast : ((⌈q * 1024 * 1024 / (chunkSize : ℚ)⌉.toNat : ℕ) : ℚ)
        = (⌈q * 1024 * 1024 / (chunkSize : ℚ)⌉ : ℚ) := by
      exact_mod_cast Int.toNat_of_nonneg (le_of_lt hp)
    have hval : ((uploadPayloadSize q : ℕ) : ℚ)
        = (⌈q * 1024 * 1024 / (chunkSize : ℚ)⌉ : ℚ) * (chunkSize : ℚ) := by
      show ((⌈q * 1024 * 1024 / (chunkSize : ℚ)⌉.toNat * chunkSize : ℕ) : ℚ) = _
      rw [Nat.cast_mul, hcast]
    rw [hval]
    calc q * 1024 * 1024
        = (q * 1024 * 1024 / (chunkSize : ℚ)) * (chunkSize : ℚ) := by
          field_simp
      _ ≤ (⌈q * 1024 * 1024 / (chunkSize : ℚ)⌉ : ℚ) * (chunkSize : ℚ) :=
          mul_le_mul_of_nonneg_right (Int.le_ceil _) (le_of_lt hcpos)
  · have hp : (0 : ℤ) < ⌈q * 1024 * 1024 / (chunkSize : ℚ)⌉ :=
      Int.ceil_pos.mpr (div_pos (by positivity) hcpos)
    have hcast : ((⌈q * 1024 * 1024 / (chunkSize : ℚ)⌉.toNat : ℕ) : ℚ)
        = (⌈q * 1024 * 1024 / (chunkSize : ℚ)⌉ : ℚ) := by
      exact_mod_cast Int.toNat_of_nonneg (le_of_lt hp)
    have hval : ((uploadPayloadSize q : ℕ) : ℚ)
        = (⌈q * 1024 * 1024 / (chunkSize : ℚ)⌉ : ℚ) * (chunkSize : ℚ) := by
      show ((⌈q * 1024 * 1024 / (chunkSize : ℚ)⌉.toNat * chunkSize : ℕ) : ℚ) = _
      rw [Nat.cast_mul, hcast]
    rw [hval]
    have hlt : (⌈q * 1024 * 1024 / (chunkSize : ℚ)⌉ : ℚ)
        < q * 1024 * 1024 / (chunkSize : ℚ) + 1 := Int.ceil_lt_add_one _
    have := mul_lt_mul_of_pos_right hlt hcpos
    calc (⌈q * 1024 * 1024 / (chunkSize : ℚ)⌉ : ℚ) * (chunkSize : ℚ)
        < (q * 1024 * 1024 / (chunkSize : ℚ) + 1) * (chunkSize : ℚ) := this
      _ = q * 1024 * 1024 + (chunkSize : ℚ) := by
          field_simp

/-- Witness for C5 (amended) at the default 10 MB upload size. -/
theorem uploadPayload_chunk_multiple_witness :
    uploadPayloadSize ((10 : ℕ) : ℚ) = 10 * 1024 * 1024 ∧ (0 : ℚ) < 10 :=
  ⟨(uploadPayload_chunk_multiple 10 10 (by norm_num)).1, by norm_num⟩

end NetPulse

namespace NetPulse

/-- The end-to-end scenario evaluated on the embedding: 4 streams of
10,485,760 bytes over 2.0 s report an average of 160 Mbps (binary
megabits), not 167.77. -/
theorem scenarioRuns_eval :
    measureDownloadParallel 10485760 scenarioRuns [150] 2000
      = some { avgMbps := 160, peakMbps := 150, totalBytes := 41943040 } := by
  simp only [scenarioRuns, measureDownloadParallel, streamStateOf, makeStream, readLoop,
    downloadAggregate, earliestStart, List.map_cons, List.map_nil, List.filterMap_cons,
    List.filterMap_nil, totalBytesOf, List.foldl, peakOf, round2]
  norm_num

/-- Claim C1 counterexample: the claimed formula divides by 1,000,000
and predicts 167.77 for the end-to-end scenario, but the code divides by
1024·1024, so the reported avgMbps for 4×10,485,760 bytes over 2.0 s is
160, not 167.77. -/
theorem avgMbps_scenario_reports_160 :
    measureDownloadParallel 10485760 scenarioRuns [150] 2000
      = some { avgMbps := 160, peakMbps := 150, totalBytes := 41943040 } ∧
    round2 ((41943040 * 8 / 2 : ℚ) / 1000000) = 16777 / 100 ∧
    ¬ ((160 : ℚ) = 16777 / 100) :=
  ⟨scenarioRuns_eval, by norm_num [round2], by norm_num⟩

/-- Claim C1 (amended): for every completed download stage, the reported
avgMbps equals totalBytes·8 divided by the wall-clock elapsed seconds
(earliest stream start to completion) divided by 1024·1024 (binary
megabits, not 1,000,000), rounded to 2 decimal places; in the end-to-end
scenario of 4 streams each delivering 10,485,760 bytes with the first
stream starting at t = 0 and completion at t = 2.0 s, the reported
avgMbps is 160.00. -/
theorem avgMbps_binary_megabits (states : List StreamState) (samples : List ℚ)
    (now t0 : ℚ) (r : DownloadResult) (hE : earliestStart states = some t0)
    (hlt : t0 < now) (hr : downloadAggregate states samples now = some r) :
    r.avgMbps = round2 ((totalBytesOf states : ℚ) * 8 / ((now - t0) / 1000) / (1024 * 1024)) ∧
    r.totalBytes = totalBytesOf states ∧
    measureDownloadParallel 10485760 scenarioRuns [150] 2000
      = some { avgMbps := 160, peakMbps := 150, totalBytes := 41943040 } := by
  rw [downloadAggregate_eq states samples now t0 hE hlt] at hr
  cases Option.some.inj hr
  exact ⟨rfl, rfl, scenarioRuns_eval⟩

/-- Witness for C1 (amended) on one 41,943,040-byte stream state over
2.0 s. -/
theorem avgMbps_binary_megabits_witness :
    ({ avgMbps := 160, peakMbps := 150, totalBytes := 41943040 } : DownloadResult).avgMbps
      = round2 ((totalBytesOf [{ bytes := 41943040, start := some 0 }] : ℚ) * 8
          / (((2000 : ℚ) - 0) / 1000) / (1024 * 1024)) ∧
    ({ avgMbps := 160, peakMbps := 150, totalBytes := 41943040 } : DownloadResult).totalBytes
      = totalBytesOf [{ bytes := 41943040, start := some 0 }] ∧
    measureDownloadParallel 10485760 scenarioRuns [150] 2000
      = some { avgMbps := 160, peakMbps := 150, totalBytes := 41943040 } :=
  avgMbps_binary_megabits [{ bytes := 41943040, start := some 0 }] [150] 2000 0
    { avgMbps := 160, peakMbps := 150, totalBytes := 41943040 } rfl (by norm_num)
    (by
      simp only [downloadAggregate, earliestStart, List.filterMap_cons, List.filterMap_nil,
        totalBytesOf, List.foldl, peakOf, round2]
      norm_num)

/-- Claim C2: whenever the Download Coordinator reports a result, its
totalBytes is the sum of each stream's delivered bytes at termination
(a failed stream contributing 0), and as long as at least one stream
connected before the completion time — in particular when a single
stream failed but others ran — the coordinator's result is not absent;
the rate is then computed from the bytes the remaining streams
delivered. -/
theorem downloadTotalBytes_sum (targetBytes : Nat) (runs : List StreamRun)
    (samples : List ℚ) (now : ℚ) :
    (∀ r : DownloadResult, measureDownloadParallel targetBytes runs samples now = some r →
      r.totalBytes = (runs.map (fun run => (streamStateOf targetBytes run).bytes)).sum) ∧
    ((∃ run ∈ runs, (∃ ev, run.fetch = FetchOutcome.ok ev) ∧ run.startTime < now) →
      measureDownloadParallel targetBytes runs samples now ≠ none) := by
  constructor
  · intro r hr
    obtain ⟨t0, hE, hlt, hreq⟩ :=
      downloadAggregate_some (runs.map (streamStateOf targetBytes)) samples now r hr
    rw [hreq]
    show totalBytesOf (runs.map (streamStateOf targetBytes))
      = (runs.map (fun run => (streamStateOf targetBytes run).bytes)).sum
    rw [totalBytesOf_eq_sum, List.map_map]
    rfl
  · exact measureDownload_settles targetBytes runs samples now

/-- Witness for C2 on the spec's partial-failure scenario: 1 of 4
streams fails at the connection, the other 3 each deliver 131,072
bytes — the coordinator still reports, from 393,216 total bytes. -/
theorem downloadTotalBytes_sum_witness :
    measureDownloadParallel 131072 partialFailRuns [1] 2000 ≠ none ∧
    (partialFailRuns.map (fun run => (streamStateOf 131072 run).bytes)).sum = 393216 := by
  refine ⟨?_, rfl⟩
  exact (downloadTotalBytes_sum 131072 partialFailRuns [1] 2000).2
    ⟨{ fetch := FetchOutcome.ok [ChunkEvent.chunk 131072], startTime := 100 },
      List.mem_cons_of_mem _ (List.mem_cons_self _ _),
      ⟨[ChunkEvent.chunk 131072], rfl⟩, by norm_num⟩

/-- Claim C4 counterexample: one stream starts at t = 0, the only
sampler tick (at 500 ms) sees 0 delivered bytes and records a 0 Mbps
sample, all 1,048,576 bytes arrive after that tick, and the transfer
completes at t = 600 ms: the reported peakMbps is 0 while the reported
avgMbps is 13.33 — peak < avg, refuting peak ≥ avg. -/
theorem peakMbps_below_avg :
    downloadAggregate [{ bytes := 1048576, start := some 0 }] [0] 600
      = some { avgMbps := 1333 / 100, peakMbps := 0, totalBytes := 1048576 } ∧
    sampleMbps 0 500 = 0 ∧
    ¬ ((1333 / 100 : ℚ) ≤ 0) := by
  refine ⟨?_, by norm_num [sampleMbps], by norm_num⟩
  simp only [downloadAggregate, earliestStart, List.filterMap_cons, List.filterMap_nil,
    totalBytesOf, List.foldl, peakOf, round2]
  norm_num

/-- Claim C4 (amended): for every completed download measurement, the
reported peakMbps is the rounded maximum of the recorded instantaneous
samples — which can fall below avgMbps when bytes arrive outside the
sampled intervals (e.g. after the last sampler tick) — and in the
degenerate case where no samples were recorded, peakMbps equals
avgMbps exactly. -/
theorem peakMbps_max_or_avg (states : List StreamState) (samples : List ℚ) (now : ℚ)
    (r : DownloadResult) (h : downloadAggregate states samples now = some r) :
    (samples = [] → r.peakMbps = r.avgMbps) ∧
    ∀ m ms, samples = m :: ms → r.peakMbps = round2 (ms.foldl max m) := by
  obtain ⟨t0, hE, hlt, hreq⟩ := downloadAggregate_some states samples now r h
  subst hreq
  constructor
  · intro hs
    subst hs
    rfl
  · intro m ms hs
    subst hs
    rfl

/-- Witness for C4 (amended) on a zero-sample run: peak equals avg. -/
theorem peakMbps_max_or_avg_witness :
    ({ avgMbps := 1333 / 100, peakMbps := 1333 / 100, totalBytes := 1048576 }
        : DownloadResult).peakMbps
      = ({ avgMbps := 1333 / 100, peakMbps := 1333 / 100, totalBytes := 1048576 }
        : DownloadResult).avgMbps :=
  (peakMbps_max_or_avg [{ bytes := 1048576, start := some 0 }] [] 600
    { avgMbps := 1333 / 100, peakMbps := 1333 / 100, totalBytes := 1048576 }
    (by
      simp only [downloadAggregate, earliestStart, List.filterMap_cons, List.filterMap_nil,
        totalBytesOf, List.foldl, peakOf, round2]
      norm_num)).1 rfl

/-- Claim C8 counterexample: when the fetch itself rejects (failure to
open the connection), the unit's only log entry is the start entry — the
failure is NOT logged, because the `await fetch` sits outside the
`try`/`catch` — and the unit's promise is rejected rather than an
errored fulfillment. -/
theorem openFailure_not_logged :
    (makeStream 10485760 0 { fetch := FetchOutcome.fail, startTime := 0 }).logs
      = [streamStartLog 0] ∧
    (makeStream 10485760 0 { fetch := FetchOutcome.fail, startTime := 0 }).fulfilled = false ∧
    streamErrorLog 0 "Failed to fetch"
      ∉ (makeStream 10485760 0 { fetch := FetchOutcome.fail, startTime := 0 }).logs :=
  ⟨rfl, rfl, by decide⟩

/-- Claim C8 (amended): a transport failure while reading the body is
caught inside the unit — it logs the failure and fulfills with the bytes
read so far; a failure to open the connection instead rejects the unit's
promise with no failure log entry; in both cases the error is never
raised to sibling units: `Promise.allSettled` absorbs it, the other
streams' bytes are kept, and the coordinator still settles with a
result. -/
theorem streamFailure_isolated (targetBytes index : Nat) (chunks : List Nat) (msg : String)
    (t0 : ℚ) (runs : List StreamRun) (samples : List ℚ) (now : ℚ)
    (hsum : chunks.sum < targetBytes)
    (hok : ∃ run ∈ runs, (∃ ev, run.fetch = FetchOutcome.ok ev) ∧ run.startTime < now) :
    makeStream targetBytes index
        { fetch := FetchOutcome.ok (chunks.map ChunkEvent.chunk ++ [ChunkEvent.readError msg]),
          startTime := t0 }
      = { bytes := chunks.sum, start := some t0,
          logs := [streamStartLog index, streamErrorLog index msg], fulfilled := true } ∧
    makeStream targetBytes index { fetch := FetchOutcome.fail, startTime := t0 }
      = { bytes := 0, start := none, logs := [streamStartLog index], fulfilled := false } ∧
    measureDownloadParallel targetBytes runs samples now ≠ none := by
  refine ⟨?_, rfl, measureDownload_settles targetBytes runs samples now hok⟩
  have h := readLoop_chunks_then_error index targetBytes msg chunks 0 (by omega)
  simp [makeStream, h]

/-- Witness for C8 (amended): one stream errors after 100 bytes of an
131,072-byte target, one fails at the connection, and the coordinator on
the partial-failure scenario still settles. -/
theorem streamFailure_isolated_witness :
    makeStream 131072 1
        { fetch := FetchOutcome.ok [ChunkEvent.chunk 100, ChunkEvent.readError "network error"],
          startTime := 50 }
      = { bytes := 100, start := some 50,
          logs := [streamStartLog 1, streamErrorLog 1 "network error"], fulfilled := true } ∧
    makeStream 131072 1 { fetch := FetchOutcome.fail, startTime := 50 }
      = { bytes := 0, start := none, logs := [streamStartLog 1], fulfilled := false } ∧
    measureDownloadParallel 131072 partialFailRuns [1] 2000 ≠ none :=
  streamFailure_isolated 131072 1 [100] "network error" 50 partialFailRuns [1] 2000
    (by decide)
    ⟨{ fetch := FetchOutcome.ok [ChunkEvent.chunk 131072], startTime := 100 },
      List.mem_cons_of_mem _ (List.mem_cons_self _ _),
      ⟨[ChunkEvent.chunk 131072], rfl⟩, by norm_num⟩

end NetPulse
